import Mathlib

/-!
Verification of the configuration-resolution and orchestration core of the
terraform-buildkite-plugin repository, as a shallow embedding in Lean 4.

The embedding covers:
* the `partition` algorithm of `internal/adapters/workingdir` (parallel-job
  sharding of the resolved working-directory list);
* `Working.Parse` and `handleWorkingDirectories` of the same package;
* `getPluginName`, `findRawPlugin`, `parseRawPlugin` (environment/JSON merge)
  and `validatePlugin` of `internal/config`;
* the orchestrator state sequence (init → plan → validate → apply) of
  `internal/plugin/orchestrator`;
* the per-directory driver loop of `internal/plugin.Handle`.

Go slices become Lean lists, Go `int` becomes `Int` (no overflow is possible
here: every arithmetic value is bounded by a list length), nil-able pointers
become `Option`, fallible functions return `Except`, and a possible nil
dereference is made explicit with a dedicated `panic`-like constructor.
-/

/-! ## Partition (internal/adapters/workingdir, `partition`) -/

/-- Embedding of `partition[T any](items []T, jobIndex, jobCount int) []T`:
the contiguous chunk of `items` assigned to job `jobIndex` out of `jobCount`
jobs.  Degenerate parameters yield the empty list (Go returns `nil`).
`items[start : start+sz]` is rendered as `(items.drop start).take sz`. -/
def partition {α : Type} (items : List α) (jobIndex jobCount : Int) : List α :=
  if jobCount ≤ 0 ∨ jobIndex < 0 ∨ jobIndex ≥ jobCount then
    []
  else
    let length := items.length
    let i := jobIndex.toNat
    let c := jobCount.toNat
    let baseSize := length / c
    let extra := length % c
    let start :=
      if i < extra then i * (baseSize + 1)
      else extra * (baseSize + 1) + (i - extra) * baseSize
    let sz := if i < extra then baseSize + 1 else baseSize
    (items.drop start).take sz

/-- The start offset computed by `partition` for length `n`, job count `c`,
job index `i` (all in `Nat`, as reached in the non-degenerate branch). -/
def pStart (n c i : Nat) : Nat :=
  if i < n % c then i * (n / c + 1)
  else (n % c) * (n / c + 1) + (i - n % c) * (n / c)

/-- The chunk size computed by `partition` for length `n`, job count `c`,
job index `i`. -/
def pSize (n c i : Nat) : Nat :=
  if i < n % c then n / c + 1 else n / c

theorem partition_eq_slice {α : Type} (items : List α) {i c : Nat} (hic : i < c) :
    partition items (i : Int) (c : Int) =
      (items.drop (pStart items.length c i)).take (pSize items.length c i) := by
  have hcond : ¬((c : Int) ≤ 0 ∨ (i : Int) < 0 ∨ (i : Int) ≥ (c : Int)) := by
    push_neg
    refine ⟨?_, ?_, ?_⟩ <;> omega
  simp only [partition, hcond, if_false, Int.toNat_natCast, pStart, pSize]

theorem pStart_succ (n c i : Nat) (hic : i < c) :
    pStart n c (i + 1) = pStart n c i + pSize n c i := by
  unfold pStart pSize
  rcases Nat.lt_or_ge (i + 1) (n % c) with h1 | h1
  · have h2 : i < n % c := by omega
    simp only [h1, h2, if_true]
    ring
  · rcases Nat.lt_or_ge i (n % c) with h2 | h2
    · -- here i + 1 = n % c
      have h3 : i + 1 = n % c := by omega
      have h4 : ¬(i + 1 < n % c) := by omega
      simp only [h4, h2, if_true, if_false]
      rw [← h3]
      simp only [Nat.sub_self, Nat.zero_mul, Nat.add_zero]
      ring
    · have h4 : ¬(i + 1 < n % c) := by omega
      have h5 : ¬(i < n % c) := by omega
      simp only [h4, h5, if_false]
      have h6 : i + 1 - n % c = (i - n % c) + 1 := by omega
      rw [h6, Nat.succ_mul]
      ring

theorem pStart_zero (n c : Nat) : pStart n c 0 = 0 := by
  unfold pStart
  rcases Nat.lt_or_ge 0 (n % c) with h | h
  · simp [h]
  · simp [Nat.le_zero.mp h]

theorem pStart_last (n c : Nat) (hc : 0 < c) : pStart n c c = n := by
  unfold pStart
  have h1 : n % c < c := Nat.mod_lt _ hc
  have h2 : ¬(c < n % c) := by omega
  simp only [h2, if_false]
  have h3 : (c - n % c) * (n / c) = c * (n / c) - (n % c) * (n / c) :=
    Nat.sub_mul _ _ _
  have h4 : (n % c) * (n / c) ≤ c * (n / c) :=
    Nat.mul_le_mul_right _ (Nat.le_of_lt h1)
  have h5 : n % c + c * (n / c) = n := Nat.mod_add_div n c
  calc (n % c) * (n / c + 1) + (c - n % c) * (n / c)
      = (n % c) * (n / c) + (n % c) + (c * (n / c) - (n % c) * (n / c)) := by
        rw [h3]; ring_nf
    _ = n := by omega

theorem pStart_le (n c : Nat) (hc : 0 < c) : ∀ k, k ≤ c → pStart n c (c - k) ≤ n := by
  intro k
  induction k with
  | zero => intro _; simp [pStart_last n c hc]
  | succ m ih =>
    intro hm
    have h1 : c - (m + 1) + 1 = c - m := by omega
    have h2 : c - (m + 1) < c := by omega
    have h3 := pStart_succ n c (c - (m + 1)) h2
    rw [h1] at h3
    have h4 := ih (by omega)
    omega

theorem pStart_add_pSize_le (n c i : Nat) (hc : 0 < c) (hi : i < c) :
    pStart n c i + pSize n c i ≤ n := by
  have h1 := pStart_succ n c i hi
  have h2 := pStart_le n c hc (c - (i + 1)) (by omega)
  have h3 : c - (c - (i + 1)) = i + 1 := by omega
  rw [h3] at h2
  omega

theorem join_slices {α : Type} (l : List α) (c : Nat) (hc : 0 < c) :
    ∀ k a, a + k = c →
      ((List.range' a k).map
          (fun i => (l.drop (pStart l.length c i)).take (pSize l.length c i))).flatten
        = (l.drop (pStart l.length c a)).take (l.length - pStart l.length c a) := by
  intro k
  induction k with
  | zero =>
    intro a ha
    have ha2 : a = c := by omega
    subst ha2
    simp [pStart_last l.length a hc]
  | succ m ih =>
    intro a ha
    rw [List.range'_succ, List.map_cons, List.flatten_cons]
    rw [ih (a + 1) (by omega)]
    have hstep := pStart_succ l.length c a (by omega)
    have hle := pStart_add_pSize_le l.length c a hc (by omega)
    rw [hstep]
    have hdrop : l.drop (pStart l.length c a + pSize l.length c a)
        = (l.drop (pStart l.length c a)).drop (pSize l.length c a) := by
      rw [List.drop_drop]
    rw [hdrop, ← List.take_add]
    congr 1
    omega

theorem partition_length {α : Type} (items : List α) {i c : Nat}
    (hic : i < c) :
    (partition items (i : Int) (c : Int)).length = pSize items.length c i := by
  rw [partition_eq_slice items hic]
  have h1 := pStart_add_pSize_le items.length c i (by omega) hic
  simp only [List.length_take, List.length_drop]
  omega

/-- C1.  Partition completeness and balance: for every job count `c ≥ 1`,
the in-order concatenation of the `c` independently computed partitions of
`items` reconstructs `items` (hence no overlap and no gaps), and any two
partition sizes differ by at most one. -/
theorem partition_complete_and_balanced {α : Type} (items : List α) (c : Nat)
    (hc : 1 ≤ c) :
    ((List.range c).map (fun i : Nat => partition items (i : Int) (c : Int))).flatten
        = items ∧
      ∀ i j : Nat, i < c → j < c →
        (partition items (i : Int) (c : Int)).length ≤
          (partition items (j : Int) (c : Int)).length + 1 := by
  constructor
  · rw [List.range_eq_range']
    have hmap : (List.range' 0 c).map
          (fun i : Nat => partition items (i : Int) (c : Int))
        = (List.range' 0 c).map
            (fun i => (items.drop (pStart items.length c i)).take
              (pSize items.length c i)) := by
      apply List.map_congr_left
      intro i hi
      have hic : i < c := by
        have := List.mem_range'_1.mp hi
        omega
      exact partition_eq_slice items hic
    rw [hmap, join_slices items c (by omega) c 0 (by omega)]
    rw [pStart_zero]
    simp
  · intro i j hi hj
    rw [partition_length items hi, partition_length items hj]
    unfold pSize
    rcases Nat.lt_or_ge i (items.length % c) with h1 | h1 <;>
      rcases Nat.lt_or_ge j (items.length % c) with h2 | h2 <;>
        simp [h1, h2, Nat.not_lt_of_ge] <;> omega

/-- Witness for C1 at `items = [0,1,2,3,4]`, `c = 3`. -/
theorem partition_complete_and_balanced_witness :
    1 ≤ 3 ∧
      (((List.range 3).map
          (fun i : Nat =>
            partition ([0, 1, 2, 3, 4] : List Nat) (i : Int) (3 : Int))).flatten
          = [0, 1, 2, 3, 4] ∧
        ∀ i j : Nat, i < 3 → j < 3 →
          (partition ([0, 1, 2, 3, 4] : List Nat) (i : Int) (3 : Int)).length ≤
            (partition ([0, 1, 2, 3, 4] : List Nat) (j : Int) (3 : Int)).length + 1) :=
  ⟨by decide, partition_complete_and_balanced [0, 1, 2, 3, 4] 3 (by decide)⟩

/-- C8.  Partition degeneracy: for every input list and every degenerate
parameter pair (`c ≤ 0`, `i < 0`, or `i ≥ c`), `partition` returns the empty
list (it is total, so no error is ever raised). -/
theorem partition_degenerate {α : Type} (items : List α) (i c : Int)
    (h : c ≤ 0 ∨ i < 0 ∨ i ≥ c) : partition items i c = [] := by
  simp only [partition, h, if_true]

/-- Witness for C8 at `items = [10, 20, 30]`, `i = 3`, `c = 3`. -/
theorem partition_degenerate_witness :
    ((3 : Int) ≤ 0 ∨ (3 : Int) < 0 ∨ (3 : Int) ≥ (3 : Int)) ∧
      partition ([10, 20, 30] : List Nat) 3 3 = [] :=
  ⟨by decide, partition_degenerate [10, 20, 30] 3 3 (by decide)⟩

/-! ## Working-directory configuration (internal/adapters/workingdir)

The Go structs use nil-able pointers for optional fields; these become
`Option`.  `Directories.ParentDirectory`, `.Artifact` and `.NameRegex` are
plain strings whose zero value `""` means "unset", exactly as in Go. -/

structure Parallelism where
  parallelJob : Option Int
  parallelJobCount : Option Int
deriving DecidableEq, Repr

structure Directories where
  parentDirectory : String
  artifact : String
  nameRegex : String
deriving DecidableEq, Repr

structure Working where
  directory : Option String
  directories : Option Directories
  parallelism : Option Parallelism
deriving DecidableEq, Repr

/-- Outcome of `Working.Parse`: a directory list, a Go error, or a runtime
nil-pointer dereference (which in Go crashes the process). -/
inductive ParseResult where
  | ok (dirs : List String)
  | failure (msg : String)
  | panicked
deriving DecidableEq, Repr

/-- Embedding of `handleWorkingDirectories`.  The directory listing
(`listDirs`, performing `os.ReadDir` plus regex filtering) touches the
filesystem and is passed as an oracle: it returns either the matched
subdirectory paths or an error. -/
def handleWorkingDirectories
    (listDirs : String → String → Except String (List String))
    (w : Option Directories) : Except String (List String) :=
  match w with
  | none => .error "working directories configuration is nil"
  | some d =>
    if d.parentDirectory ≠ "" then listDirs d.parentDirectory d.nameRegex
    else if d.artifact ≠ "" then .error "artifact handling not implemented yet"
    else .error "no valid working directory configuration found"

/-- The `w.Directories != nil` arm of `Working.Parse`: list the directories
and, when `w.Parallelism` is non-nil, partition them using the dereferenced
`*w.Parallelism.ParallelJob` and `*w.Parallelism.ParallelJobCount`.  A
dereference of a nil field is rendered as `.panicked`. -/
def parseDirectoriesArm
    (listDirs : String → String → Except String (List String))
    (ww : Working) : ParseResult :=
  match ww.directories with
  | some _ =>
    (match handleWorkingDirectories listDirs ww.directories with
     | .error e => .failure e
     | .ok directories =>
       match ww.parallelism with
       | some p =>
         (match p.parallelJob, p.parallelJobCount with
          | some j, some cnt => .ok (partition directories j cnt)
          | _, _ => .panicked)
       | none => .ok directories)
  | none => .failure "no valid working directory configuration found"

/-- Embedding of `(w *Working) Parse() ([]string, error)`.  The receiver may
be nil, hence `Option Working`.  A non-nil, non-empty `Directory` is returned
directly, before the `Directories`/parallelism logic is ever reached. -/
def Working.parse
    (listDirs : String → String → Except String (List String))
    (w : Option Working) : ParseResult :=
  match w with
  | none => .ok []
  | some ww =>
    match ww.directory with
    | some d => if d ≠ "" then .ok [d] else parseDirectoriesArm listDirs ww
    | none => parseDirectoriesArm listDirs ww

/-! ## Semantic validation (internal/config `validatePlugin`, go-playground tags)

`validatePlugin` runs `validator.New(...).Struct(plugin)`.  The model below
translates the struct tags field by field.  Tags run left to right;
`omitempty` ends a field's chain without error when the (dereferenced) field
is empty; `excluded_with=X` fails only when both the field and `X` carry a
value; `ltefield=X` compares the dereferenced values with `≤` and fails when
`X` is nil.  Filesystem checks (`dir`, `file`) are oracles. -/

/-- Tag evaluation for `Parallelism`:
`ParallelJob`: `omitempty,required_with=ParallelJobCount,ltefield=ParallelJobCount`;
`ParallelJobCount`: `omitempty,required_with=ParallelJob`. -/
def validParallelism (p : Parallelism) : Bool :=
  (match p.parallelJob with
   | none => true            -- omitempty: nil field, remaining tags skipped
   | some j =>
     -- required_with=ParallelJobCount: the field itself has a value: satisfied
     match p.parallelJobCount with
     | none => false         -- ltefield against a nil field fails
     | some cnt => j ≤ cnt)  -- ltefield: less-than-OR-EQUAL
  &&
  (match p.parallelJobCount with
   | none => true            -- omitempty
   | some _ => true)         -- required_with=ParallelJob: field has a value

/-- Tag evaluation for `Directories`:
`ParentDirectory`: `dir,excluded_with=Artifact`;
`Artifact`: `omitempty,file,excluded_with=ParentDirectory`;
`NameRegex`: no validate tag. -/
def validDirectories (isDir isFile : String → Bool) (d : Directories) : Bool :=
  (isDir d.parentDirectory &&
    !(d.artifact ≠ "" && d.parentDirectory ≠ "")) &&
  (if d.artifact = "" then true
   else isFile d.artifact && !(d.parentDirectory ≠ ""))

/-- Tag evaluation for `Working` (plus the validator's recursion into the
non-nil nested structs):
`Directory`: `omitempty,dir,excluded_with=Directories`;
`Directories`: `omitempty,excluded_with=Directory`;
`Parallelism`: no validate tag, still recursed into. -/
def validWorking (isDir isFile : String → Bool) (w : Working) : Bool :=
  (match w.directory with
   | none => true
   | some dpath =>
     if dpath = "" then true   -- omitempty fires on the dereferenced ""
     else isDir dpath && !w.directories.isSome) &&
  (match w.directories with
   | none => true
   | some ds =>
     !(match w.directory with | some dpath => dpath ≠ "" | none => false) &&
       validDirectories isDir isFile ds) &&
  (match w.parallelism with
   | none => true
   | some p => validParallelism p)

/-- The configuration record, restricted to the fields the claims constrain
(`Mode`, `Working`).  `Terraform`, `Outputs` and `Validations` carry no
validate tags relevant here and enter the orchestrator model as behaviour
parameters instead. -/
structure Plugin where
  mode : String
  working : Option Working
deriving DecidableEq, Repr

/-- Tag evaluation for `Plugin`: `Mode`: `required,oneof=plan apply`;
`Working`: recursed into when non-nil. -/
def validPluginStruct (isDir isFile : String → Bool) (p : Plugin) : Bool :=
  (p.mode ≠ "" && (p.mode = "plan" || p.mode = "apply")) &&
  (match p.working with
   | none => true
   | some w => validWorking isDir isFile w)

/-- Embedding of `validatePlugin`: wraps a failed struct validation in the
`ConfigError` message `failed to validate config`. -/
def validatePlugin (isDir isFile : String → Bool) (p : Plugin) :
    Except String Unit :=
  if validPluginStruct isDir isFile p then .ok ()
  else .error "failed to validate config"

/-- A concrete directory-listing oracle used by witnesses: the parent
directory `/tmp/t` holds subdirectories `blue`, `green`, `red`. -/
def listDirsW : String → String → Except String (List String) :=
  fun _ _ => .ok ["/tmp/t/blue", "/tmp/t/green", "/tmp/t/red"]

/-- A concrete filesystem oracle: `/tmp/t` and `/tf` are directories. -/
def isDirW : String → Bool := fun s => s == "/tmp/t" || s == "/tf"

/-- A concrete filesystem oracle: no path is a regular file. -/
def isFileW : String → Bool := fun _ => false

/-- C9.  Single-directory mode wins unconditionally: whenever `Directory` is
non-nil and non-empty, `Parse` returns exactly that one directory, before the
`Directories`/parallelism logic is ever consulted — so parallel shards all
resolve the same single directory. -/
theorem parse_single_directory
    (listDirs : String → String → Except String (List String))
    (w : Working) (d : String) (hd : w.directory = some d) (hne : d ≠ "") :
    Working.parse listDirs (some w) = .ok [d] := by
  simp [Working.parse, hd, hne]

/-- Witness for C9: a `Working` with a single directory AND a populated
parallelism spec still resolves to that one directory. -/
theorem parse_single_directory_witness :
    ({ directory := some "/tf", directories := none,
        parallelism := some ⟨some 1, some 4⟩ } : Working).directory
        = some "/tf" ∧
      "/tf" ≠ "" ∧
      Working.parse listDirsW
          (some { directory := some "/tf", directories := none,
                  parallelism := some ⟨some 1, some 4⟩ }) = .ok ["/tf"] :=
  ⟨by decide, by decide,
    parse_single_directory listDirsW _ "/tf" rfl (by decide)⟩

/-- A `Working` value that passes semantic struct validation although its
`Parallelism` is non-nil with both job fields nil (reachable from JSON
`"parallelism": {}`). -/
def wBothNil : Working :=
  { directory := none,
    directories := some { parentDirectory := "/tmp/t", artifact := "",
                          nameRegex := "" },
    parallelism := some { parallelJob := none, parallelJobCount := none } }

/-- Counterexample to C10: `wBothNil` passes `validatePlugin`, yet `Parse`
reaches the dereference `*w.Parallelism.ParallelJob` with a nil pointer and
panics — the claimed dereference safety is false. -/
theorem parse_panics_on_validated_nil_parallelism :
    validatePlugin isDirW isFileW { mode := "plan", working := some wBothNil }
        = .ok () ∧
      Working.parse listDirsW (some wBothNil) = .panicked := by
  constructor
  · rfl
  · rfl

/-- The parallelism field, when present, carries both job fields — the extra
precondition under which the dereferences in `Parse` are actually safe. -/
def parallelismComplete : Option Working → Bool
  | none => true
  | some w =>
    match w.parallelism with
    | none => true
    | some p => p.parallelJob.isSome && p.parallelJobCount.isSome

/-- C10 (amended).  `Parse` is panic-free exactly on the values whose
`Parallelism`, when non-nil, has both `ParallelJob` and `ParallelJobCount`
present; struct validation alone does not guarantee this (see the
counterexample). -/
theorem parse_no_panic_when_parallelism_complete
    (listDirs : String → String → Except String (List String))
    (ow : Option Working) (h : parallelismComplete ow = true) :
    Working.parse listDirs ow ≠ ParseResult.panicked := by
  cases ow with
  | none => simp [Working.parse]
  | some w =>
    have harm : parseDirectoriesArm listDirs w ≠ ParseResult.panicked := by
      unfold parseDirectoriesArm
      cases hds : w.directories with
      | none => simp
      | some ds =>
        cases hld : handleWorkingDirectories listDirs (some ds) with
        | error e => simp [hds, hld]
        | ok dirs =>
          cases hp : w.parallelism with
          | none => simp [hds, hld, hp]
          | some p =>
            have hc : p.parallelJob.isSome && p.parallelJobCount.isSome := by
              simpa [parallelismComplete, hp] using h
            obtain ⟨j, hj⟩ :=
              Option.isSome_iff_exists.mp (Bool.and_elim_left hc)
            obtain ⟨cnt, hcnt⟩ :=
              Option.isSome_iff_exists.mp (Bool.and_elim_right hc)
            simp [hds, hld, hp, hj, hcnt]
    unfold Working.parse
    cases hd : w.directory with
    | none => simpa [hd] using harm
    | some d =>
      by_cases hde : d = ""
      · simpa [hd, hde] using harm
      · simp [hd, hde]

/-- Witness for the amended C10 at a concrete validated configuration with a
complete parallelism pair. -/
theorem parse_no_panic_when_parallelism_complete_witness :
    parallelismComplete
        (some { directory := none,
                directories := some ⟨"/tmp/t", "", ""⟩,
                parallelism := some ⟨some 0, some 3⟩ }) = true ∧
      Working.parse listDirsW
          (some { directory := none,
                  directories := some ⟨"/tmp/t", "", ""⟩,
                  parallelism := some ⟨some 0, some 3⟩ })
        ≠ ParseResult.panicked :=
  ⟨by decide,
    parse_no_panic_when_parallelism_complete listDirsW _ (by decide)⟩

/-- C6, evaluated at the failing input: a plugin whose parallel job index
EQUALS its job count passes `validatePlugin` without a ConfigError, because
the `ParallelJob` tag is `ltefield=ParallelJobCount` (less-than-or-equal)
while both the claim and the field's own documentation (index ranges over
`0..count-1`) require strictly-less. -/
theorem validatePlugin_accepts_job_index_equal_to_count :
    validatePlugin isDirW isFileW
        { mode := "plan",
          working := some { directory := none,
                            directories := some ⟨"/tmp/t", "", ""⟩,
                            parallelism := some ⟨some 3, some 3⟩ } }
      = .ok () := by
  rfl

/-! ## Environment/JSON configuration merge (internal/config `parseRawPlugin`)

`parseRawPlugin` first builds the plugin from environment variables (the only
env-tagged fields are `BUILDKITE_PARALLEL_JOB` and
`BUILDKITE_PARALLEL_JOB_COUNT`, pre-allocating `Working`/`Parallelism` when
either variable is set) and then runs `json.Unmarshal` of the matched JSON
fragment over that value.  `json.Unmarshal` into an existing value sets
exactly the fields whose keys occur in the JSON object, descends into an
existing struct behind a non-nil pointer, and allocates a zero struct behind
a nil pointer; keys absent from the JSON leave the existing value intact.
The `*Frag` records below are the JSON fragment: `none` = key absent. -/

structure ParallelismFrag where
  parallelJob : Option Int
  parallelJobCount : Option Int
deriving DecidableEq, Repr

structure DirectoriesFrag where
  parentDirectory : Option String
  artifact : Option String
  nameRegex : Option String
deriving DecidableEq, Repr

structure WorkingFrag where
  directory : Option String
  directories : Option DirectoriesFrag
  parallelism : Option ParallelismFrag
deriving DecidableEq, Repr

structure PluginFrag where
  mode : Option String
  working : Option WorkingFrag
deriving DecidableEq, Repr

def emptyDirectories : Directories := ⟨"", "", ""⟩

def emptyParallelism : Parallelism := ⟨none, none⟩

def emptyWorking : Working := ⟨none, none, none⟩

def mergeDirectories (base : Directories) (f : DirectoriesFrag) : Directories :=
  { parentDirectory := f.parentDirectory.getD base.parentDirectory,
    artifact := f.artifact.getD base.artifact,
    nameRegex := f.nameRegex.getD base.nameRegex }

def mergeParallelism (base : Parallelism) (f : ParallelismFrag) : Parallelism :=
  { parallelJob :=
      match f.parallelJob with
      | some j => some j
      | none => base.parallelJob,
    parallelJobCount :=
      match f.parallelJobCount with
      | some cnt => some cnt
      | none => base.parallelJobCount }

def mergeWorking (base : Working) (f : WorkingFrag) : Working :=
  { directory :=
      match f.directory with
      | some d => some d
      | none => base.directory,
    directories :=
      match f.directories with
      | some df => some (mergeDirectories (base.directories.getD emptyDirectories) df)
      | none => base.directories,
    parallelism :=
      match f.parallelism with
      | some pf => some (mergeParallelism (base.parallelism.getD emptyParallelism) pf)
      | none => base.parallelism }

/-- Embedding of `parseRawPlugin`: `envJob`/`envCount` are the parsed values
of the two parallel-job environment variables (`none` = variable unset; a
set-but-unparsable variable errors out earlier and never reaches the merge).
The environment-derived shell is built first, then the JSON fragment is
overlaid. -/
def parseRawPlugin (envJob envCount : Option Int) (frag : PluginFrag) :
    Plugin :=
  let base : Plugin :=
    { mode := "",
      working :=
        if envJob.isSome || envCount.isSome then
          some { emptyWorking with
                 parallelism := some ⟨envJob, envCount⟩ }
        else none }
  { mode :=
      match frag.mode with
      | some m => m
      | none => base.mode,
    working :=
      match frag.working with
      | some wf => some (mergeWorking (base.working.getD emptyWorking) wf)
      | none => base.working }

/-- C5.  Merge precedence is environment first, JSON second: every field the
JSON fragment mentions ends up with the JSON value (shown for `mode` and for
the nested parallelism pair), and every field the fragment omits keeps its
environment-derived value (shown for the parallelism pair when the fragment
omits `working` entirely and when it has a `working` without `parallelism`). -/
theorem parseRawPlugin_precedence (envJob envCount : Option Int)
    (frag : PluginFrag) (j cnt : Int) :
    (∀ m, frag.mode = some m → (parseRawPlugin envJob envCount frag).mode = m)
    ∧ (∀ wf pf, frag.working = some wf → wf.parallelism = some pf →
        pf.parallelJob = some j → pf.parallelJobCount = some cnt →
        ∃ w, (parseRawPlugin envJob envCount frag).working = some w ∧
          w.parallelism = some ⟨some j, some cnt⟩)
    ∧ (frag.working = none → envJob = some j → envCount = some cnt →
        (parseRawPlugin envJob envCount frag).working
          = some { directory := none, directories := none,
                   parallelism := some ⟨some j, some cnt⟩ })
    ∧ (∀ wf, frag.working = some wf → wf.parallelism = none →
        wf.directories = none → wf.directory = none →
        envJob = some j → envCount = some cnt →
        (parseRawPlugin envJob envCount frag).working
          = some { directory := none, directories := none,
                   parallelism := some ⟨some j, some cnt⟩ }) := by
  refine ⟨?_, ?_, ?_, ?_⟩
  · intro m hm
    simp [parseRawPlugin, hm]
  · intro wf pf hwf hpf hj hcnt
    refine ⟨mergeWorking
      ((if envJob.isSome || envCount.isSome then
          some { emptyWorking with parallelism := some ⟨envJob, envCount⟩ }
        else none).getD emptyWorking) wf, ?_, ?_⟩
    · simp [parseRawPlugin, hwf]
    · simp [mergeWorking, hpf, mergeParallelism, hj, hcnt]
  · intro hwf hj hcnt
    simp [parseRawPlugin, hwf, hj, hcnt, emptyWorking]
  · intro wf hwf hpf hds hd hj hcnt
    simp [parseRawPlugin, hwf, hj, hcnt, mergeWorking, hpf, hds, hd,
      emptyWorking]

/-- Witness for C5: env sets job 2 of 5; the JSON fragment sets only the
mode.  The resolved plugin takes mode from JSON and keeps the
environment-derived parallelism. -/
theorem parseRawPlugin_precedence_witness :
    (({ mode := some "plan", working := none } : PluginFrag).mode
        = some "plan" →
      (parseRawPlugin (some 2) (some 5)
          { mode := some "plan", working := none }).mode = "plan") ∧
      (({ mode := some "plan", working := none } : PluginFrag).working = none →
        (some 2 : Option Int) = some 2 → (some 5 : Option Int) = some 5 →
        (parseRawPlugin (some 2) (some 5)
            { mode := some "plan", working := none }).working
          = some { directory := none, directories := none,
                   parallelism := some ⟨some 2, some 5⟩ }) :=
  ⟨fun h => (parseRawPlugin_precedence (some 2) (some 5)
      { mode := some "plan", working := none } 2 5).1 "plan" h,
    fun h1 h2 h3 => ((parseRawPlugin_precedence (some 2) (some 5)
      { mode := some "plan", working := none } 2 5).2.2.1) h1 h2 h3⟩

/-! ## Plugin lookup (internal/config `getPluginName`, `findRawPlugin`)

String manipulation is carried out on character lists so that every
definition evaluates inside the kernel. -/

/-- Split a character list at the first occurrence of the three-character
separator `://` (as `strings.Contains`/scheme parsing does): returns the part
before and the part after it, or `none` when it does not occur. -/
def splitSchemeAux : List Char → Option (List Char × List Char)
  | ':' :: '/' :: '/' :: rest => some ([], rest)
  | ch :: rest =>
    (match splitSchemeAux rest with
     | some p => some (ch :: p.1, p.2)
     | none => none)
  | [] => none

/-- Characters allowed in a URL scheme after the leading letter. -/
def isSchemeChar (ch : Char) : Bool :=
  ch.isAlpha || ch.isDigit || ch == '+' || ch == '-' || ch == '.'

/-- A valid URL scheme: a letter followed by scheme characters. -/
def schemeOk : List Char → Bool
  | [] => false
  | ch :: rest => ch.isAlpha && rest.all isSchemeChar

/-- Everything strictly before the first occurrence of `sep`. -/
def beforeChar (sep : Char) (l : List Char) : List Char :=
  l.takeWhile (fun ch => ch != sep)

/-- The final `/`-separated segment (the whole list when it has no `/`),
as computed by Go's `path.Split`. -/
def afterLastSlash (l : List Char) : List Char :=
  l.foldl (fun acc ch => if ch == '/' then [] else acc ++ [ch]) []

/-- Model of the composition `url.Parse` → `u.Path` used by
`getPluginName`.  `net/url` is an external library; the model covers the
plugin-reference shapes the loader receives: the `#` fragment and `?` query
are split off first; a reference containing `://` must have a valid scheme
(otherwise `url.Parse` fails, hence `none`), and its path is everything from
the first `/` after the authority; a reference without `://` and without `:`
is a rootless relative reference whose path is the reference itself. -/
def urlPathModel (ref : List Char) : Option (List Char) :=
  let s1 := beforeChar '#' ref
  let s2 := beforeChar '?' s1
  match splitSchemeAux s2 with
  | some (sch, rest) =>
    if schemeOk sch then some (rest.dropWhile (fun ch => ch != '/'))
    else none
  | none => if s2.contains ':' then none else some s2

/-- Embedding of `getPluginName`: prepend `https://` to a `github.com/…`
reference that has no `://`, take the URL path's final segment; fall back to
the raw key when URL parsing fails. -/
def getPluginName (s : String) : String :=
  let ref :=
    if "github.com/".toList.isPrefixOf s.toList
        && !(splitSchemeAux s.toList).isSome then
      "https://" ++ s
    else s
  match urlPathModel ref.toList with
  | none => s
  | some p => String.mk (afterLastSlash p)

/-- Embedding of `findRawPlugin` over the parsed plugins array: each array
element is a single-key JSON map, rendered as a list of key/value pairs; the
first entry whose canonical name has `pluginName` as a prefix wins. -/
def findRawPlugin {α : Type} (data : List (List (String × α)))
    (pluginName : String) : Except String α :=
  match data with
  | [] => .error "could not initialize plugin"
  | entry :: rest =>
    match entry.find?
        (fun kv => pluginName.toList.isPrefixOf (getPluginName kv.1).toList) with
    | some kv => .ok kv.2
    | none => findRawPlugin rest pluginName

/-- C7.  Plugin lookup: the canonical name of
`github.com/org/terraform-buildkite-plugin#v0.0.1` is
`terraform-buildkite-plugin`, so an array whose first entry carries that key
resolves to that entry's configuration; and when no entry's canonical name
has the target as a prefix (the empty array included), lookup fails with
the ConfigError message `could not initialize plugin`. -/
theorem findRawPlugin_lookup {α : Type} (pluginName : String) :
    getPluginName "github.com/org/terraform-buildkite-plugin#v0.0.1"
        = "terraform-buildkite-plugin"
    ∧ (∀ (v : α) (rest : List (List (String × α))),
        findRawPlugin
            ([("github.com/org/terraform-buildkite-plugin#v0.0.1", v)] :: rest)
            "terraform-buildkite-plugin" = .ok v)
    ∧ (∀ data : List (List (String × α)),
        (∀ entry ∈ data, ∀ kv ∈ entry,
          pluginName.toList.isPrefixOf (getPluginName kv.1).toList = false) →
        findRawPlugin data pluginName = .error "could not initialize plugin") := by
  refine ⟨by rfl, ?_, ?_⟩
  · intro v rest
    rfl
  · intro data h
    induction data with
    | nil => rfl
    | cons entry rest ih =>
      have hfind : entry.find?
          (fun kv => pluginName.toList.isPrefixOf (getPluginName kv.1).toList)
          = none := by
        apply List.find?_eq_none.mpr
        intro kv hkv
        have h2 := h entry (by simp) kv hkv
        simp only [String.toList] at h2
        simp only [Bool.not_eq_true, String.toList]
        exact h2
      simp only [findRawPlugin, hfind]
      exact ih fun e he kv hkv => h e (by simp [he]) kv hkv

/-- Witness for C7: the matching key is found; a sole non-matching key
(canonical name `other-plugin`) makes lookup fail. -/
theorem findRawPlugin_lookup_witness :
    findRawPlugin
        ([("github.com/org/terraform-buildkite-plugin#v0.0.1", (1 : Nat))] :: [])
        "terraform-buildkite-plugin" = .ok 1
    ∧ (∀ entry ∈ ([[("github.com/org/other-plugin#v0.0.1", (2 : Nat))]] :
          List (List (String × Nat))), ∀ kv ∈ entry,
        "terraform-buildkite-plugin".toList.isPrefixOf
          (getPluginName kv.1).toList = false)
    ∧ findRawPlugin [[("github.com/org/other-plugin#v0.0.1", (2 : Nat))]]
        "terraform-buildkite-plugin" = .error "could not initialize plugin" :=
  ⟨(findRawPlugin_lookup "terraform-buildkite-plugin").2.1 1 [],
    by decide,
    (findRawPlugin_lookup "terraform-buildkite-plugin").2.2 _ (by decide)⟩

/-! ## Orchestrator (internal/plugin/orchestrator)

The external terraform process and the configured validators are behaviour
parameters; the control flow of `Plan`/`Apply`/`Run` and of the step helpers
is translated from the source.  The structured plan document only ever flows
from `planSteps` into the validators, so it is rendered as `Unit`. -/

structure WorkspaceResult where
  success : Bool
  stage : String
  workingDir : String
  error : Option String
deriving DecidableEq, Repr

/-- Outcome of one configured validator's `Validate` call: an execution
error, or a `ValidationResult` with its `Passed` flag. -/
inductive VOutcome where
  | execError (msg : String)
  | result (passed : Bool)
deriving DecidableEq, Repr

def VOutcome.isExecError : VOutcome → Bool
  | .execError _ => true
  | .result _ => false

/-- Behaviour of the external terraform process in one working directory:
whether `NewTerraform` and `Init` succeed, whether `Plan` succeeds and
reports changes (`none` = plan error), whether `ShowPlanFile` succeeds, and
whether `Apply` succeeds. -/
structure TfBehavior where
  initOk : Bool
  planOutcome : Option Bool
  showOk : Bool
  applyOk : Bool
deriving DecidableEq, Repr

/-- Embedding of `initSteps`; the `newTerraform` and `tf.Init` failure paths
both produce a stage-"initialization" failure and are folded into `initOk`. -/
def initSteps (tf : TfBehavior) (workingDir : String) :
    Option WorkspaceResult :=
  if tf.initOk then none
  else
    some { success := false, stage := "initialization",
           workingDir := workingDir,
           error := some "failed to run terraform init" }

/-- Embedding of `planSteps`: plan error, the no-changes short circuit
(a SUCCESS result at stage planning), show-plan error, or a materialized
plan document for validation. -/
def planSteps (tf : TfBehavior) (workingDir : String) :
    Option Unit × Option WorkspaceResult :=
  match tf.planOutcome with
  | none =>
    (none,
      some { success := false, stage := "planning", workingDir := workingDir,
             error := some "failed to run terraform plan" })
  | some hasChanges =>
    if !hasChanges then
      (none,
        some { success := true, stage := "planning", workingDir := workingDir,
               error := some "no changes detected in the Terraform plan" })
    else if !tf.showOk then
      (none,
        some { success := false, stage := "showing plan",
               workingDir := workingDir,
               error := some "failed to show plan file" })
    else (some (), none)

/-- Embedding of the loop of `validateSteps`.  Returns the number of
validators invoked paired with the loop's result (`none` = validation
passed); `failures` is the running length of the accumulated
`validationFalures` slice. -/
def validateStepsAux (workingDir : String) (failures : Nat) :
    List VOutcome → Nat × Option WorkspaceResult
  | [] =>
    (0,
      if failures > 0 then
        some { success := false, stage := "validation",
               workingDir := workingDir,
               error := some ("validation failed with " ++ toString failures
                 ++ " issues") }
      else none)
  | v :: rest =>
    match v with
    | .execError msg =>
      (1,
        some { success := false, stage := "validation",
               workingDir := workingDir,
               error := some ("validation failed: " ++ msg) })
    | .result passed =>
      let next :=
        validateStepsAux workingDir
          (if passed then failures else failures + 1) rest
      (next.1 + 1, next.2)

/-- Embedding of `validateSteps` (failure accumulator starts empty). -/
def validateSteps (validators : List VOutcome) (workingDir : String) :
    Nat × Option WorkspaceResult :=
  validateStepsAux workingDir 0 validators

/-- What the orchestrator did besides producing its result: how many
validator invocations were made and whether `terraform apply` ran. -/
structure OrchTrace where
  validatorCalls : Nat
  applyCalled : Bool
deriving DecidableEq, Repr

/-- Embedding of `Plan` (the mode-plan pipeline). -/
def orchestratorPlan (tf : TfBehavior) (validators : List VOutcome)
    (workingDir : String) : WorkspaceResult × OrchTrace :=
  match initSteps tf workingDir with
  | some r => (r, ⟨0, false⟩)
  | none =>
    match planSteps tf workingDir with
    | (_, some r) => (r, ⟨0, false⟩)
    | (_, none) =>
      let v := validateSteps validators workingDir
      match v.2 with
      | some r => (r, ⟨v.1, false⟩)
      | none =>
        ({ success := true, stage := "planning", workingDir := workingDir,
           error := none }, ⟨v.1, false⟩)

/-- Embedding of `Apply` (the mode-apply pipeline): identical through
validation, then `terraform apply` on the saved binary plan file. -/
def orchestratorApply (tf : TfBehavior) (validators : List VOutcome)
    (workingDir : String) : WorkspaceResult × OrchTrace :=
  match initSteps tf workingDir with
  | some r => (r, ⟨0, false⟩)
  | none =>
    match planSteps tf workingDir with
    | (_, some r) => (r, ⟨0, false⟩)
    | (_, none) =>
      let v := validateSteps validators workingDir
      match v.2 with
      | some r => (r, ⟨v.1, false⟩)
      | none =>
        if tf.applyOk then
          ({ success := true, stage := "apply", workingDir := workingDir,
             error := none }, ⟨v.1, true⟩)
        else
          ({ success := false, stage := "applying", workingDir := workingDir,
             error := some "failed to apply Terraform plan" }, ⟨v.1, true⟩)

/-- Embedding of `Run`: dispatch on the configured mode, with the source's
default-case result for an unsupported mode. -/
def orchestratorRun (mode : String) (tf : TfBehavior)
    (validators : List VOutcome) (workingDir : String) :
    WorkspaceResult × OrchTrace :=
  if mode = "plan" then orchestratorPlan tf validators workingDir
  else if mode = "apply" then orchestratorApply tf validators workingDir
  else
    ({ success := false, stage := "validation", workingDir := workingDir,
       error := some ("unsupported plugin mode: " ++ mode) }, ⟨0, false⟩)

/-- C3.  No-op plan short circuit: when init succeeds and the plan reports
zero changes, the orchestrator returns the successful stage-"planning"
result with zero validator invocations and no apply call — in plan AND in
apply mode, for any configured validators. -/
theorem noop_plan_short_circuit (tf : TfBehavior)
    (validators : List VOutcome) (workingDir mode : String)
    (hinit : tf.initOk = true) (hplan : tf.planOutcome = some false)
    (hmode : mode = "plan" ∨ mode = "apply") :
    orchestratorRun mode tf validators workingDir
      = ({ success := true, stage := "planning", workingDir := workingDir,
           error := some "no changes detected in the Terraform plan" },
          ⟨0, false⟩) := by
  rcases hmode with hm | hm <;> subst hm <;>
    simp [orchestratorRun, orchestratorPlan, orchestratorApply, initSteps,
      planSteps, hinit, hplan]

/-- Witness for C3 in apply mode with a failing validator configured:
neither the validator nor apply is reached. -/
theorem noop_plan_short_circuit_witness :
    (⟨true, some false, true, true⟩ : TfBehavior).initOk = true ∧
      (⟨true, some false, true, true⟩ : TfBehavior).planOutcome = some false ∧
      orchestratorRun "apply" ⟨true, some false, true, true⟩
          [VOutcome.result false] "/tmp/t/blue"
        = ({ success := true, stage := "planning",
             workingDir := "/tmp/t/blue",
             error := some "no changes detected in the Terraform plan" },
            ⟨0, false⟩) :=
  ⟨rfl, rfl,
    noop_plan_short_circuit ⟨true, some false, true, true⟩
      [VOutcome.result false] "/tmp/t/blue" "apply" rfl rfl (Or.inr rfl)⟩

/-- The number of validators reporting `passed:false`. -/
def failedCount (validators : List VOutcome) : Nat :=
  (validators.filter (fun v => decide (v = VOutcome.result false))).length

theorem validateStepsAux_no_execError (workingDir : String) :
    ∀ (validators : List VOutcome) (failures : Nat),
      (∀ v ∈ validators, v.isExecError = false) →
      validateStepsAux workingDir failures validators
        = (validators.length,
            if failures + failedCount validators > 0 then
              some { success := false, stage := "validation",
                     workingDir := workingDir,
                     error := some ("validation failed with "
                       ++ toString (failures + failedCount validators)
                       ++ " issues") }
            else none) := by
  intro validators
  induction validators with
  | nil =>
    intro failures _
    simp [validateStepsAux, failedCount]
  | cons v rest ih =>
    intro failures h
    have hv : v.isExecError = false := h v (by simp)
    cases v with
    | execError msg => simp [VOutcome.isExecError] at hv
    | result passed =>
      have hrest : ∀ w ∈ rest, w.isExecError = false := by
        intro w hw
        exact h w (by simp [hw])
      cases passed with
      | true =>
        have hfc : failedCount (VOutcome.result true :: rest)
            = failedCount rest := by
          simp [failedCount]
        have hstep : validateStepsAux workingDir failures
              (VOutcome.result true :: rest)
            = ((validateStepsAux workingDir failures rest).1 + 1,
               (validateStepsAux workingDir failures rest).2) := rfl
        rw [hstep, ih failures hrest, hfc]
        rfl
      | false =>
        have hfc : failedCount (VOutcome.result false :: rest)
            = failedCount rest + 1 := by
          simp [failedCount]
        have hstep : validateStepsAux workingDir failures
              (VOutcome.result false :: rest)
            = ((validateStepsAux workingDir (failures + 1) rest).1 + 1,
               (validateStepsAux workingDir (failures + 1) rest).2) := rfl
        rw [hstep, ih (failures + 1) hrest, hfc]
        have harith : failures + (failedCount rest + 1)
            = failures + 1 + failedCount rest := by omega
        rw [harith]
        rfl

/-- C4.  Validation aggregation: when no validator returns an execution
error, every configured validator is invoked (in configuration order, by the
sequential loop), and if `k ≥ 1` of them report `passed:false` the result is
the stage-"validation" failure whose message counts exactly `k` issues. -/
theorem validation_aggregation (validators : List VOutcome)
    (workingDir : String)
    (hnoerr : ∀ v ∈ validators, v.isExecError = false) :
    (validateSteps validators workingDir).1 = validators.length ∧
      (1 ≤ failedCount validators →
        (validateSteps validators workingDir).2
          = some { success := false, stage := "validation",
                   workingDir := workingDir,
                   error := some ("validation failed with "
                     ++ toString (failedCount validators) ++ " issues") }) := by
  have h := validateStepsAux_no_execError workingDir validators 0 hnoerr
  unfold validateSteps
  rw [h]
  constructor
  · rfl
  · intro hk
    have hpos : 0 + failedCount validators > 0 := by omega
    simp only [hpos, if_true, Nat.zero_add]
    have hpos2 : failedCount validators > 0 := by omega
    rw [if_pos hpos2]

/-- Witness for C4: three validators, the 1st and 3rd failing, the 2nd
passing — all three are invoked and the message counts 2 issues. -/
theorem validation_aggregation_witness :
    (∀ v ∈ ([VOutcome.result false, VOutcome.result true,
        VOutcome.result false] : List VOutcome), v.isExecError = false) ∧
      (validateSteps
          [VOutcome.result false, VOutcome.result true, VOutcome.result false]
          "/tmp/t/green").1 = 3 ∧
      (validateSteps
          [VOutcome.result false, VOutcome.result true, VOutcome.result false]
          "/tmp/t/green").2
        = some { success := false, stage := "validation",
                 workingDir := "/tmp/t/green",
                 error := some "validation failed with 2 issues" } := by
  refine ⟨by decide, ?_, ?_⟩
  · exact (validation_aggregation
      [VOutcome.result false, VOutcome.result true, VOutcome.result false]
      "/tmp/t/green" (by decide)).1
  · exact (validation_aggregation
      [VOutcome.result false, VOutcome.result true, VOutcome.result false]
      "/tmp/t/green" (by decide)).2 (by decide)

/-! ## Execution handler loop (internal/plugin `Handle`) -/

inductive ExitStatus where
  | success
  | unexpectedFailure
  | handledFailure
  | noWorkingDirectories
  | testModeEarlyExit
deriving DecidableEq, Repr

/-- The process exit code of each `ExitStatus`. -/
def ExitStatus.toInt : ExitStatus → Int
  | .success => 0
  | .unexpectedFailure => 1
  | .handledFailure => 2
  | .noWorkingDirectories => 3
  | .testModeEarlyExit => 10

/-- Embedding of the per-directory loop of `Handle`.  `run` is the behaviour
of the one constructed orchestrator's `Run` for a working directory.  The
first component is the exact sequence of arguments passed to
`orchestrator.Run`, in call order; the second is the accumulated `failures`
slice.  The loop body is translated verbatim: it calls `Run` once, and on a
non-success result calls `Run` a SECOND time for the same directory and
appends that second call's result
(`failures = append(failures, *orchestrator.Run(ctx, workingDir))`). -/
def handleLoop (run : String → WorkspaceResult) :
    List String → List String × List WorkspaceResult
  | [] => ([], [])
  | d :: rest =>
    let result := run d
    let next := handleLoop run rest
    if !result.success then (d :: d :: next.1, run d :: next.2)
    else (d :: next.1, next.2)

/-- Embedding of the tail of `Handle`: `HandledFailure` when any directory
failed, `Success` otherwise. -/
def handleExit (run : String → WorkspaceResult) (dirs : List String) :
    ExitStatus :=
  if (handleLoop run dirs).2.length > 0 then .handledFailure else .success

/-- A concrete orchestrator behaviour: the red workspace fails at planning,
every other workspace succeeds. -/
def runRedFails : String → WorkspaceResult :=
  fun d =>
    if d == "/tmp/t/red" then
      { success := false, stage := "planning", workingDir := d,
        error := some "failed to run terraform plan" }
    else
      { success := true, stage := "planning", workingDir := d, error := none }

/-- C2, evaluated at the failing input: with resolved directories
`[red, blue]` where red fails, `Handle` passes red to `orchestrator.Run`
TWICE (the failure branch re-runs the orchestrator to build the stored
failure), so a directory IS processed more than once, contrary to the
claim's "invoked exactly once per directory"; ordering, accumulation of the
failure and the `HandledFailure` exit are as described. -/
theorem handle_runs_failing_directory_twice :
    (handleLoop runRedFails ["/tmp/t/red", "/tmp/t/blue"]).1
        = ["/tmp/t/red", "/tmp/t/red", "/tmp/t/blue"] ∧
      (handleLoop runRedFails ["/tmp/t/red", "/tmp/t/blue"]).1.count
          "/tmp/t/red" = 2 ∧
      (handleLoop runRedFails ["/tmp/t/red", "/tmp/t/blue"]).2
        = [{ success := false, stage := "planning",
             workingDir := "/tmp/t/red",
             error := some "failed to run terraform plan" }] ∧
      handleExit runRedFails ["/tmp/t/red", "/tmp/t/blue"]
        = ExitStatus.handledFailure := by
  refine ⟨rfl, rfl, rfl, rfl⟩
